/-
Verification of the token-stream rewriting core of msvc-wine's
`cmaketricks.cpp` and `cmdfileremap.cpp`.

Both programs read a file into a NUL-terminated byte buffer, repeatedly call
a `token` function to extract one token, classify the token against four
regular expressions, rewrite an embedded path via the Wine translation
capability (`wine_get_dos_file_name`, abstracted here as `Translate`), and
write the reserialized token to the (already truncated) destination file.

Modelling conventions:
* A buffer is a `List Char` holding the file's bytes up to the terminating
  NUL; end-of-list plays the role of the `'\0'` terminator (the programs
  never store a NUL inside the buffer they scan).
* A cursor is represented by the suffix of the buffer it points to, so the
  C pointer `pBuffer` returned by `token` becomes the `rest` component of
  `TokRes.tok`.
* The bounded token buffer (`char[1024]`, `TOKEN_SIZE`) is modelled by the
  `cap` argument of `token`; the C `assert( size < pTokenLen - 1 )` firing
  is modelled by the result `TokRes.overflow` (the assert aborts before the
  `memcpy`, so no token is produced).
* `remap` calls the translation capability and overwrites the token buffer
  in place starting at the path offset; `WideCharToMultiByte`'s codepage
  conversion is modelled as the identity on the translated text (the claims
  under study do not concern the codepage conversion).  A `none` result of
  the capability makes `remap` call `exit(4)`, modelled as the error
  `Err.translationFailure`.
* `remapFile` opens the destination with `fopen(pFile, "w")` — truncating
  its previous contents — *before* the token loop, and each token's output
  is written with `fprintf` as the loop runs; `exit` flushes stdio buffers,
  so the `text` field of a `Run` records the bytes that reach the
  destination file up to the point the run stops (normally or fatally).
  Nested `remapFile` calls (forced includes) write to their own files; they
  are recorded in the `recs` field as (path, mode) requests in the order
  the program performs them.
-/
import Mathlib

namespace MsvcWine

/-- Whitespace skipped at the start of `token`: `*p == ' ' || *p == '\t'`. -/
def isWs (c : Char) : Bool := c == ' ' || c == '\t'

/-- Characters matched by the regex metacharacter `.` in ECMAScript mode
(`std::regex`'s default): any character except a line terminator. -/
def isDot (c : Char) : Bool :=
  c != '\n' && c != '\r' && c != '\u2028' && c != '\u2029'

/-- Loop condition of the quoted-token scan: `*p != '"'` (with end-of-buffer
handled by the list ending). -/
def notQuote (c : Char) : Bool := c != '"'

/-- Loop condition of the bare-token scan in `cmaketricks.cpp`:
`*p != ' ' && *p != '\t' && *p != '\0' && *p != '\r' && *p != '\n'`. -/
def notDelimCT (c : Char) : Bool :=
  c != ' ' && c != '\t' && c != '\r' && c != '\n'

/-- Loop condition of the bare-token scan in `cmdfileremap.cpp`:
`*p != ' ' && *p != '\t' && *p != '\0'` (no newline cases). -/
def notDelimCF (c : Char) : Bool := c != ' ' && c != '\t'

/-- Embedding of `ONE_PATH`, the regex `[-\/][A-Za-z]\/.*` under
`std::regex_match` (anchored at both ends): a `-` or `/`, one ASCII letter,
a `/`, then any run of `.`-matching characters. -/
def matchONE (t : List Char) : Bool :=
  match t with
  | c0 :: c1 :: c2 :: rest =>
    (c0 == '-' || c0 == '/') && c1.isAlpha && c2 == '/' && rest.all isDot
  | _ => false

/-- Embedding of `DUO_PATH`, the regex `[-\/][A-Za-z]{2}\/.*` under
`std::regex_match`: a `-` or `/`, two ASCII letters, a `/`, then any run of
`.`-matching characters. -/
def matchDUO (t : List Char) : Bool :=
  match t with
  | c0 :: c1 :: c2 :: c3 :: rest =>
    (c0 == '-' || c0 == '/') && c1.isAlpha && c2.isAlpha && c3 == '/' &&
      rest.all isDot
  | _ => false

/-- Embedding of `TRI_PATH`, the regex `[-\/][A-Za-z]{3,}:\/.*` under
`std::regex_match`.  Because `:` is not a letter, the (greedy, backtracking)
`[A-Za-z]{3,}` can only succeed on the maximal letter run following the
first character, which must then be followed by `:` and `/`; so the match
is equivalent to: take the maximal ASCII-letter run after the `-`/`/`,
require its length to be at least 3, and require the remainder to be
`:` `/` followed by `.`-matching characters. -/
def matchTRI (t : List Char) : Bool :=
  match t with
  | c0 :: rest =>
    (c0 == '-' || c0 == '/') && 3 ≤ (rest.takeWhile Char.isAlpha).length &&
      (match rest.dropWhile Char.isAlpha with
       | ':' :: '/' :: r2 => r2.all isDot
       | _ => false)
  | [] => false

/-- Helper for `matchJUS`: the list contains a `'/'` at some position other
than the last one. -/
def slashNotLast : List Char → Bool
  | [] => false
  | [_] => false
  | c :: cs => c == '/' || slashNotLast cs

/-- Embedding of `JUS_PATH`, the regex `\/.+\/.+` under `std::regex_match`:
the token is `'/'` followed by `a ++ '/' :: b` with `a` and `b` nonempty
runs of `.`-matching characters.  Since `'/'` itself is matched by `.`,
such a split exists iff everything after the leading `'/'` is `.`-matching
and some `'/'` occurs at an index ≥ 1 (so `a` is nonempty) and strictly
before the last index (so `b` is nonempty). -/
def matchJUS (t : List Char) : Bool :=
  match t with
  | '/' :: rest =>
    rest.all isDot &&
      (match rest with
       | [] => false
       | _ :: cs => slashNotLast cs)
  | _ => false

/-- Result of one `token` call: `END` models the `nullptr` return at
end-of-buffer, `overflow` models the `assert( size < pTokenLen - 1 )`
aborting, and `tok t rest` models the token text `t` copied into the token
buffer together with the returned cursor `rest`. -/
inductive TokRes
  | END
  | overflow
  | tok (t : List Char) (rest : List Char)
deriving DecidableEq

namespace Cmaketricks

/-- Embedding of `token` from `cmaketricks.cpp` (lines 187-219): skip
spaces/tabs; emit `'\r'`/`'\n'` as a one-character token; return `END` at
the terminator; scan a quoted run (the quotes are not part of the token;
note `offset` stays 0 in the source, so the returned cursor points *at*
the closing quote) or a bare run delimited by space/tab/CR/LF/end; abort
on `size >= pTokenLen - 1`, else emit the run. -/
def token (cap : Nat) (buf : List Char) : TokRes :=
  match buf.dropWhile isWs with
  | [] => .END
  | c :: bs =>
    if c == '\r' || c == '\n' then .tok [c] bs
    else if c == '"' then
      if (bs.takeWhile notQuote).length < cap - 1 then
        .tok (bs.takeWhile notQuote) (bs.dropWhile notQuote)
      else .overflow
    else
      if ((c :: bs).takeWhile notDelimCT).length < cap - 1 then
        .tok ((c :: bs).takeWhile notDelimCT) ((c :: bs).dropWhile notDelimCT)
      else .overflow

end Cmaketricks

namespace Cmdfileremap

/-- Embedding of `token` from `cmdfileremap.cpp` (lines 139-165): identical
to the `cmaketricks.cpp` variant except that there is no carriage-return /
line-feed branch and the bare-run scan does not stop at `'\r'`/`'\n'`. -/
def token (cap : Nat) (buf : List Char) : TokRes :=
  match buf.dropWhile isWs with
  | [] => .END
  | c :: bs =>
    if c == '"' then
      if (bs.takeWhile notQuote).length < cap - 1 then
        .tok (bs.takeWhile notQuote) (bs.dropWhile notQuote)
      else .overflow
    else
      if ((c :: bs).takeWhile notDelimCF).length < cap - 1 then
        .tok ((c :: bs).takeWhile notDelimCF) ((c :: bs).dropWhile notDelimCF)
      else .overflow

end Cmdfileremap

/-- A `dropWhile` that produced a cons has a head falsifying the predicate. -/
theorem dropWhile_head_not {α : Type} {p : α → Bool} :
    ∀ {l : List α} {c : α} {cs : List α}, l.dropWhile p = c :: cs → p c = false := by
  intro l
  induction l with
  | nil => intro c cs h; simp [List.dropWhile] at h
  | cons a as ih =>
    intro c cs h
    rw [List.dropWhile_cons] at h
    by_cases hp : p a = true
    · rw [if_pos hp] at h; exact ih h
    · rw [if_neg hp] at h
      cases h
      exact Bool.of_not_eq_true hp

/-- `dropWhile` never lengthens a list. -/
theorem length_dropWhile_le {α : Type} (p : α → Bool) (l : List α) :
    (l.dropWhile p).length ≤ l.length :=
  (List.dropWhile_sublist p).length_le

/-- The cursor returned by `Cmaketricks.token` with a token strictly advances
through the buffer (each call consumes at least one character). -/
theorem token_rest_lt_CT {cap : Nat} {buf t rest : List Char}
    (h : Cmaketricks.token cap buf = TokRes.tok t rest) : rest.length < buf.length := by
  unfold Cmaketricks.token at h
  split at h
  · exact absurd h (by simp)
  next c bs hb =>
    have hlb : bs.length < buf.length := by
      have h2 := length_dropWhile_le isWs buf
      rw [hb] at h2
      simp only [List.length_cons] at h2
      omega
    split at h
    next h1 =>
      cases h
      exact hlb
    next h1 =>
      split at h
      next h2 =>
        split at h
        next h3 =>
          cases h
          exact lt_of_le_of_lt (length_dropWhile_le _ _) hlb
        next h3 => exact absurd h (by simp)
      next h2 =>
        split at h
        next h3 =>
          cases h
          have hws : isWs c = false := dropWhile_head_not hb
          have hc : notDelimCT c = true := by
            simp only [isWs, Bool.or_eq_false_iff] at hws
            simp only [Bool.or_eq_true, not_or] at h1
            simp [notDelimCT, bne, hws.1, hws.2]
            constructor
            · intro hcr; exact h1.1 (by simp [hcr])
            · intro hnl; exact h1.2 (by simp [hnl])
          rw [List.dropWhile_cons_of_pos hc]
          exact lt_of_le_of_lt (length_dropWhile_le _ _) hlb
        next h3 => exact absurd h (by simp)

/-- The cursor returned by `Cmdfileremap.token` with a token strictly
advances through the buffer. -/
theorem token_rest_lt_CF {cap : Nat} {buf t rest : List Char}
    (h : Cmdfileremap.token cap buf = TokRes.tok t rest) : rest.length < buf.length := by
  unfold Cmdfileremap.token at h
  split at h
  · exact absurd h (by simp)
  next c bs hb =>
    have hlb : bs.length < buf.length := by
      have h2 := length_dropWhile_le isWs buf
      rw [hb] at h2
      simp only [List.length_cons] at h2
      omega
    split at h
    next h2 =>
      split at h
      next h3 =>
        cases h
        exact lt_of_le_of_lt (length_dropWhile_le _ _) hlb
      next h3 => exact absurd h (by simp)
    next h2 =>
      split at h
      next h3 =>
        cases h
        have hws : isWs c = false := dropWhile_head_not hb
        have hc : notDelimCF c = true := by
          simp only [isWs, Bool.or_eq_false_iff] at hws
          simp [notDelimCF, bne, hws.1, hws.2]
        rw [List.dropWhile_cons_of_pos hc]
        exact lt_of_le_of_lt (length_dropWhile_le _ _) hlb
      next h3 => exact absurd h (by simp)

/-- The `Mode` enum of `cmaketricks.cpp`: `CMD` processes command files,
`PCH` processes precompiled-header sources. -/
inductive Mode
  | CMD
  | PCH
deriving DecidableEq

/-- Fatal conditions that abort a run:
* `translationFailure p`: `wine_get_dos_file_name` returned `NULL` for `p`
  and `remap` called `exit( 4 )`;
* `tokenOverflow`: the `assert( size < pTokenLen - 1 )` in `token` fired;
* `nullDeref`: the loop condition called `token` with the `nullptr` cursor
  returned by a previous call (the `#include`-at-end-of-file case in
  `cmaketricks.cpp`), dereferencing a null pointer;
* `badArrayLength`: `cmdfileremap.cpp`'s `TRI_PATH` branch computed the
  negative length `tok - strchr( tok, ':' )` and evaluated
  `new char[len + 1]` with a negative size, which throws
  `std::bad_array_new_length` and terminates the process. -/
inductive Err
  | translationFailure (path : List Char)
  | tokenOverflow
  | nullDeref
  | badArrayLength
deriving DecidableEq

/-- Observable outcome of one `remapFile` invocation on one buffer:
`text` is the byte sequence written to the (truncated-at-open) destination
file up to the point the run stops; `recs` lists the nested `remapFile`
invocations the run performs, in order, as (path, mode) pairs; `err` is
`none` for a completed run and the fatal condition otherwise.  Writes that
`fprintf` buffered before a fatal `exit` reach the file because `exit`
flushes stdio streams. -/
structure Run where
  text : List Char
  recs : List (List Char × Mode)
  err : Option Err
deriving DecidableEq

/-- A run that consumed the whole token stream. -/
def Run.done : Run := ⟨[], [], none⟩

/-- A run aborting with a fatal condition before writing anything further. -/
def Run.fail (e : Err) : Run := ⟨[], [], some e⟩

/-- Prepend bytes written before the remainder of the run. -/
def Run.emit (s : List Char) (r : Run) : Run := ⟨s ++ r.text, r.recs, r.err⟩

/-- Record a nested `remapFile` invocation performed before the remainder
of the run. -/
def Run.addRec (p : List Char × Mode) (r : Run) : Run := ⟨r.text, p :: r.recs, r.err⟩

/-- The abstract path-translation capability: `wine_get_dos_file_name`
composed with the `WideCharToMultiByte` narrowing, as performed by `remap`.
`none` models a `NULL` return, on which `remap` calls `exit( 4 )`. -/
abbrev Translate := List Char → Option (List Char)

namespace Cmaketricks

/-- `static constexpr auto TOKEN_SIZE{ 1024 }` from `remapFile`. -/
def TOKEN_SIZE : Nat := 1024

/-- Embedding of the token-processing loop of `remapFile` from
`cmaketricks.cpp` (lines 120-169), parameterised by the translation
capability `tr` and the mode.  Each loop iteration:
* skips a token whose first byte is a space (`tok[0] == ' '`, commented
  "empty string" in the source);
* copies a token starting with CR or LF as that single character
  (`fputc( *tok, file )`);
* in `CMD` mode classifies the token against `ONE_PATH`, `DUO_PATH`,
  `TRI_PATH`, `JUS_PATH` in that order, remaps the path at the class's
  offset in place, and prints the whole token quoted with a trailing
  space; a `DUO_PATH` token whose letters are `F` then `I` or `i` (a
  forced include) additionally recurses
  into the rewritten path in `PCH` mode;
* in `PCH` mode prints a token equal to `#include` verbatim, pulls the
  next token as the include target, remaps it unconditionally, and prints
  it as ` "<target>"`; if the tokenizer signals `END` for the target, the
  token buffer still holds `#include`, which is what `remap` receives, and
  afterwards the loop condition passes the null cursor back to `token`;
* in `PCH` mode prints any other token as itself plus a trailing space. -/
def remapFile (tr : Translate) (pMode : Mode) (buf : List Char) : Run :=
  match htok : token TOKEN_SIZE buf with
  | .END => Run.done
  | .overflow => Run.fail .tokenOverflow
  | .tok t rest =>
    if t.head? = some ' ' then remapFile tr pMode rest
    else if t.head? = some '\r' then Run.emit ['\r'] (remapFile tr pMode rest)
    else if t.head? = some '\n' then Run.emit ['\n'] (remapFile tr pMode rest)
    else
      match pMode with
      | .CMD =>
        if matchONE t then
          match tr (t.drop 2) with
          | none => Run.fail (.translationFailure (t.drop 2))
          | some q =>
            Run.emit ('"' :: (t.take 2 ++ q) ++ ['"', ' ']) (remapFile tr pMode rest)
        else if matchDUO t then
          match tr (t.drop 3) with
          | none => Run.fail (.translationFailure (t.drop 3))
          | some q =>
            if t.getD 1 'x' == 'F' && (t.getD 2 'x' == 'I' || t.getD 2 'x' == 'i') then
              Run.emit ('"' :: (t.take 3 ++ q) ++ ['"', ' '])
                (Run.addRec (q, Mode.PCH) (remapFile tr pMode rest))
            else
              Run.emit ('"' :: (t.take 3 ++ q) ++ ['"', ' ']) (remapFile tr pMode rest)
        else if matchTRI t then
          match tr (t.drop ((t.takeWhile (fun c => c != ':')).length + 1)) with
          | none =>
            Run.fail (.translationFailure (t.drop ((t.takeWhile (fun c => c != ':')).length + 1)))
          | some q =>
            Run.emit ('"' :: (t.take ((t.takeWhile (fun c => c != ':')).length + 1) ++ q) ++ ['"', ' '])
              (remapFile tr pMode rest)
        else if matchJUS t then
          match tr t with
          | none => Run.fail (.translationFailure t)
          | some q => Run.emit ('"' :: q ++ ['"', ' ']) (remapFile tr pMode rest)
        else
          Run.emit ('"' :: t ++ ['"', ' ']) (remapFile tr pMode rest)
      | .PCH =>
        if t = "#include".data then
          match htok2 : token TOKEN_SIZE rest with
          | .END =>
            match tr t with
            | none => Run.emit t (Run.fail (.translationFailure t))
            | some q => Run.emit (t ++ ' ' :: '"' :: q ++ ['"']) (Run.fail .nullDeref)
          | .overflow => Run.emit t (Run.fail .tokenOverflow)
          | .tok t2 r2 =>
            match tr t2 with
            | none => Run.emit t (Run.fail (.translationFailure t2))
            | some q => Run.emit (t ++ ' ' :: '"' :: q ++ ['"']) (remapFile tr pMode r2)
        else
          Run.emit (t ++ [' ']) (remapFile tr pMode rest)
termination_by buf.length
decreasing_by
  all_goals first
    | exact token_rest_lt_CT htok
    | exact Nat.lt_trans (token_rest_lt_CT htok2) (token_rest_lt_CT htok)

end Cmaketricks

/-- Embedding of `printf`'s minimum-field-width string conversion `%Ns`:
the whole argument string, left-padded with spaces to at least `w`
characters (note: a *minimum width*, not a precision — `%2s` prints the
entire string, not its first two characters). -/
def fmtMin (w : Nat) (s : List Char) : List Char :=
  List.replicate (w - s.length) ' ' ++ s

namespace Cmdfileremap

/-- Embedding of the token-processing loop of `remapFile` from
`cmdfileremap.cpp` (lines 97-121).  There is no mode, no leading-space
skip and no newline pass-through.  Each token is classified against
`ONE_PATH`, `DUO_PATH`, `TRI_PATH`, `JUS_PATH` in order:
* `ONE_PATH`: remap in place at offset 2, then
  `fprintf( file, "\"%2s%s\" ", tok, tok )` — `%2s` is a minimum field
  width, so the (rewritten) token is printed twice;
* `DUO_PATH`: remap at offset 3, then `"\"%3s%s\" "` with `tok, tok` —
  again the token printed twice (and no forced-include recursion in this
  variant);
* `TRI_PATH`: `auto len = tok - std::strchr( tok, ':' )` is negative (the
  colon is after `tok`), and `new char[len + 1]` with a negative size
  throws `std::bad_array_new_length`, terminating the process before any
  remap or write for this token;
* `JUS_PATH`: remap the whole token, print it once, quoted;
* otherwise: print the token once, quoted. -/
def remapFile (tr : Translate) (buf : List Char) : Run :=
  match htok : token 1024 buf with
  | .END => Run.done
  | .overflow => Run.fail .tokenOverflow
  | .tok t rest =>
    if matchONE t then
      match tr (t.drop 2) with
      | none => Run.fail (.translationFailure (t.drop 2))
      | some q =>
        Run.emit ('"' :: (fmtMin 2 (t.take 2 ++ q) ++ (t.take 2 ++ q)) ++ ['"', ' '])
          (remapFile tr rest)
    else if matchDUO t then
      match tr (t.drop 3) with
      | none => Run.fail (.translationFailure (t.drop 3))
      | some q =>
        Run.emit ('"' :: (fmtMin 3 (t.take 3 ++ q) ++ (t.take 3 ++ q)) ++ ['"', ' '])
          (remapFile tr rest)
    else if matchTRI t then
      Run.fail .badArrayLength
    else if matchJUS t then
      match tr t with
      | none => Run.fail (.translationFailure t)
      | some q => Run.emit ('"' :: q ++ ['"', ' ']) (remapFile tr rest)
    else
      Run.emit ('"' :: t ++ ['"', ' ']) (remapFile tr rest)
termination_by buf.length
decreasing_by
  all_goals exact token_rest_lt_CF htok

end Cmdfileremap

/-- The four pattern classes of the classifier, with `NONE` for a token no
regex matches. -/
inductive PatternClass
  | SINGLE
  | DOUBLE
  | COLON
  | BARE
  | NONE
deriving DecidableEq

/-- The path classifier embodied by the regex cascade of both `remapFile`
loops: the four regexes are tried in the source's order `ONE_PATH`,
`DUO_PATH`, `TRI_PATH`, `JUS_PATH`, the first match wins, and each class
determines the offset at which `remap` is applied (`tok + 2`, `tok + 3`,
`strchr( tok, ':' ) + 1`, `tok`). -/
def classify (t : List Char) : PatternClass × Nat :=
  if matchONE t then (.SINGLE, 2)
  else if matchDUO t then (.DOUBLE, 3)
  else if matchTRI t then (.COLON, (t.takeWhile (fun c => c != ':')).length + 1)
  else if matchJUS t then (.BARE, 0)
  else (.NONE, 0)

/-- Sample translation capability used in witnesses: prepend a drive
letter, as the real capability does for paths it resolves. -/
def trZ : Translate := fun p => some ('Z' :: ':' :: p)

/-- Sample translation capability used in witnesses: fails exactly on the
path `/tmp/x`, succeeds (as the identity) elsewhere. -/
def trFailTmp : Translate := fun p => if p = "/tmp/x".data then none else some p

/-- `takeWhile` only depends on the predicate's values on the list. -/
theorem takeWhile_congr {α : Type} {p q : α → Bool} :
    ∀ {l : List α}, (∀ x ∈ l, p x = q x) → l.takeWhile p = l.takeWhile q := by
  intro l
  induction l with
  | nil => intro _; rfl
  | cons a as ih =>
    intro h
    rw [List.takeWhile_cons, List.takeWhile_cons, h a (by simp)]
    split
    · rw [ih (fun x hx => h x (by simp [hx]))]
    · rfl

/-- `dropWhile` only depends on the predicate's values on the list. -/
theorem dropWhile_congr {α : Type} {p q : α → Bool} :
    ∀ {l : List α}, (∀ x ∈ l, p x = q x) → l.dropWhile p = l.dropWhile q := by
  intro l
  induction l with
  | nil => intro _; rfl
  | cons a as ih =>
    intro h
    rw [List.dropWhile_cons, List.dropWhile_cons, h a (by simp)]
    split
    · rw [ih (fun x hx => h x (by simp [hx]))]
    · rfl

/-- A token matched by `ONE_PATH` starts with `-` or `/`. -/
theorem matchONE_shape {t : List Char} (h : matchONE t = true) :
    ∃ c0 ts, t = c0 :: ts ∧ (c0 = '-' ∨ c0 = '/') := by
  cases t with
  | nil => simp [matchONE] at h
  | cons c0 ts =>
    refine ⟨c0, ts, rfl, ?_⟩
    cases ts with
    | nil => simp [matchONE] at h
    | cons c1 t2 =>
      cases t2 with
      | nil => simp [matchONE] at h
      | cons c2 t3 =>
        simp [matchONE] at h
        exact h.1.1.1

/-- A token matched by `DUO_PATH` starts with `-` or `/`. -/
theorem matchDUO_shape {t : List Char} (h : matchDUO t = true) :
    ∃ c0 ts, t = c0 :: ts ∧ (c0 = '-' ∨ c0 = '/') := by
  cases t with
  | nil => simp [matchDUO] at h
  | cons c0 ts =>
    refine ⟨c0, ts, rfl, ?_⟩
    cases ts with
    | nil => simp [matchDUO] at h
    | cons c1 t2 =>
      cases t2 with
      | nil => simp [matchDUO] at h
      | cons c2 t3 =>
        cases t3 with
        | nil => simp [matchDUO] at h
        | cons c3 t4 =>
          simp [matchDUO] at h
          exact h.1.1.1.1

/-- A token whose head is `-` or `/` never triggers the leading-space skip
or the newline branches of the `cmaketricks.cpp` loop. -/
theorem head_ne_of_dash_slash {c0 : Char} {ts : List Char}
    (h : c0 = '-' ∨ c0 = '/') {c : Char} (hc : c = ' ' ∨ c = '\r' ∨ c = '\n') :
    ¬ ((c0 :: ts).head? = some c) := by
  rcases h with rfl | rfl <;> rcases hc with rfl | rfl | rfl <;> simp

/-- A `DUO_PATH` match excludes a `ONE_PATH` match: `ONE_PATH` forces the
character at index 2 to be `/`, `DUO_PATH` forces it to be a letter. -/
theorem matchONE_of_DUO {t : List Char} (h : matchDUO t = true) :
    matchONE t = false := by
  rw [Bool.eq_false_iff]
  intro habs
  cases t with
  | nil => simp [matchDUO] at h
  | cons c0 t1 =>
    cases t1 with
    | nil => simp [matchDUO] at h
    | cons c1 t2 =>
      cases t2 with
      | nil => simp [matchDUO] at h
      | cons c2 t3 =>
        cases t3 with
        | nil => simp [matchDUO] at h
        | cons c3 t4 =>
          simp [matchDUO] at h
          simp [matchONE] at habs
          have hc2 : c2 = '/' := habs.1.2
          have halpha : c2.isAlpha = true := h.1.1.2
          rw [hc2] at halpha
          exact absurd halpha (by decide)

/-- An exhausted buffer ends a `cmaketricks.cpp` run with no further
output. -/
theorem remapFileCT_END {tr : Translate} {m : Mode} {buf : List Char}
    (h : Cmaketricks.token Cmaketricks.TOKEN_SIZE buf = .END) :
    Cmaketricks.remapFile tr m buf = Run.done := by
  rw [Cmaketricks.remapFile]
  split
  · rfl
  next heq => rw [h] at heq; cases heq
  next t r heq => rw [h] at heq; cases heq

/-- An exhausted buffer ends a `cmdfileremap.cpp` run with no further
output. -/
theorem remapFileCF_END {tr : Translate} {buf : List Char}
    (h : Cmdfileremap.token 1024 buf = .END) :
    Cmdfileremap.remapFile tr buf = Run.done := by
  rw [Cmdfileremap.remapFile]
  split
  · rfl
  next heq => rw [h] at heq; cases heq
  next t r heq => rw [h] at heq; cases heq

/-- A `cmaketricks.cpp` run reports `exit( 4 )` (a translation failure on
path `p`) only when the translation capability actually returned `NULL`
for `p`: the auxiliary, fuel-indexed form used for induction. -/
theorem remapFileCT_exit4_aux :
    ∀ (n : Nat) (buf : List Char), buf.length ≤ n →
      ∀ (tr : Translate) (m : Mode) (p : List Char),
        (Cmaketricks.remapFile tr m buf).err = some (Err.translationFailure p) →
        tr p = none := by
  intro n
  induction n with
  | zero =>
    intro buf hlen tr m p herr
    have hbuf : buf = [] := by
      cases buf with
      | nil => rfl
      | cons a as => simp at hlen
    subst hbuf
    rw [remapFileCT_END (by decide)] at herr
    simp [Run.done] at herr
  | succ n ih =>
    intro buf hlen tr m p herr
    rw [Cmaketricks.remapFile] at herr
    split at herr
    · simp [Run.done] at herr
    · simp [Run.fail] at herr
    next t rest heq =>
      have hrest : rest.length ≤ n := by
        have := token_rest_lt_CT heq
        omega
      split at herr
      · exact ih rest hrest tr _ p herr
      · split at herr
        · simp only [Run.emit] at herr
          exact ih rest hrest tr _ p herr
        · split at herr
          · simp only [Run.emit] at herr
            exact ih rest hrest tr _ p herr
          · split at herr
            · split at herr
              · split at herr
                next heq2 =>
                  simp [Run.fail] at herr
                  rw [herr] at heq2
                  exact heq2
                next q heq2 =>
                  simp only [Run.emit] at herr
                  exact ih rest hrest tr _ p herr
              · split at herr
                · split at herr
                  next heq2 =>
                    simp [Run.fail] at herr
                    rw [herr] at heq2
                    exact heq2
                  next q heq2 =>
                    split at herr
                    · simp only [Run.emit, Run.addRec] at herr
                      exact ih rest hrest tr _ p herr
                    · simp only [Run.emit] at herr
                      exact ih rest hrest tr _ p herr
                · split at herr
                  · split at herr
                    next heq2 =>
                      simp [Run.fail] at herr
                      rw [herr] at heq2
                      exact heq2
                    next q heq2 =>
                      simp only [Run.emit] at herr
                      exact ih rest hrest tr _ p herr
                  · split at herr
                    · split at herr
                      next heq2 =>
                        simp [Run.fail] at herr
                        rw [herr] at heq2
                        exact heq2
                      next q heq2 =>
                        simp only [Run.emit] at herr
                        exact ih rest hrest tr _ p herr
                    · simp only [Run.emit] at herr
                      exact ih rest hrest tr _ p herr
            · split at herr
              · split at herr
                next heq2 =>
                  split at herr
                  next heq3 =>
                    simp [Run.emit, Run.fail] at herr
                    rw [herr] at heq3
                    exact heq3
                  next q heq3 =>
                    simp [Run.emit, Run.fail] at herr
                next heq2 =>
                  simp [Run.emit, Run.fail] at herr
                next t2 r2 heq2 =>
                  have hr2 : r2.length ≤ n := by
                    have h1 := token_rest_lt_CT heq
                    have h2 := token_rest_lt_CT heq2
                    omega
                  split at herr
                  next heq3 =>
                    simp [Run.emit, Run.fail] at herr
                    rw [herr] at heq3
                    exact heq3
                  next q heq3 =>
                    simp only [Run.emit] at herr
                    exact ih r2 hr2 tr _ p herr
              · simp only [Run.emit] at herr
                exact ih rest hrest tr _ p herr

/-- Unfolding of `Cmaketricks.token` at an exhausted position. -/
theorem tokenCT_nil {cap : Nat} {buf : List Char}
    (hb : buf.dropWhile isWs = []) : Cmaketricks.token cap buf = .END := by
  unfold Cmaketricks.token
  rw [hb]

/-- Unfolding of `Cmaketricks.token` once the whitespace skip is resolved. -/
theorem tokenCT_cons {cap : Nat} {buf : List Char} {c : Char} {bs : List Char}
    (hb : buf.dropWhile isWs = c :: bs) :
    Cmaketricks.token cap buf =
      (if c == '\r' || c == '\n' then .tok [c] bs
       else if c == '"' then
         if (bs.takeWhile notQuote).length < cap - 1 then
           .tok (bs.takeWhile notQuote) (bs.dropWhile notQuote)
         else .overflow
       else
         if ((c :: bs).takeWhile notDelimCT).length < cap - 1 then
           .tok ((c :: bs).takeWhile notDelimCT) ((c :: bs).dropWhile notDelimCT)
         else .overflow) := by
  unfold Cmaketricks.token
  rw [hb]

/-- Unfolding of `Cmdfileremap.token` at an exhausted position. -/
theorem tokenCF_nil {cap : Nat} {buf : List Char}
    (hb : buf.dropWhile isWs = []) : Cmdfileremap.token cap buf = .END := by
  unfold Cmdfileremap.token
  rw [hb]

/-- Unfolding of `Cmdfileremap.token` once the whitespace skip is resolved. -/
theorem tokenCF_cons {cap : Nat} {buf : List Char} {c : Char} {bs : List Char}
    (hb : buf.dropWhile isWs = c :: bs) :
    Cmdfileremap.token cap buf =
      (if c == '"' then
         if (bs.takeWhile notQuote).length < cap - 1 then
           .tok (bs.takeWhile notQuote) (bs.dropWhile notQuote)
         else .overflow
       else
         if ((c :: bs).takeWhile notDelimCF).length < cap - 1 then
           .tok ((c :: bs).takeWhile notDelimCF) ((c :: bs).dropWhile notDelimCF)
         else .overflow) := by
  unfold Cmdfileremap.token
  rw [hb]

/-!
### Claims
-/

/-- Claim C3: the claim states that after consuming a double-quoted run
with a closing quote present, the tokenizer returns the cursor positioned
immediately after the closing quote, so the quote is not re-read.  The
code computes `return pBuffer + offset` with `offset` initialised to `0`
and never updated, so the cursor points *at* the closing quote.  This
theorem evaluates both tokenizers at the failing input `"a" b`: the
returned cursor begins with the closing quote, and the next call therefore
consumes it as the opening quote of a new quoted run, producing the token
` b` (with a leading space) instead of `b`. -/
theorem spec_c3 :
    Cmaketricks.token Cmaketricks.TOKEN_SIZE ("\"a\" b".data) =
        .tok ("a".data) ("\" b".data) ∧
    Cmaketricks.token Cmaketricks.TOKEN_SIZE ("\" b".data) = .tok (" b".data) [] ∧
    Cmdfileremap.token 1024 ("\"a\" b".data) = .tok ("a".data) ("\" b".data) ∧
    Cmdfileremap.token 1024 ("\" b".data) = .tok (" b".data) [] :=
  ⟨by decide, by decide, by decide, by decide⟩

/-- Claim C4 (counterexample): the two `token` functions do not produce
the same result for every buffer — on `a\nb` the `cmaketricks.cpp`
tokenizer stops the bare run at the line feed, the `cmdfileremap.cpp` one
consumes the line feed into the token. -/
theorem spec_c4_counterexample :
    ¬ (Cmaketricks.token 1024 ("a\nb".data) = Cmdfileremap.token 1024 ("a\nb".data)) := by
  decide

/-- Claim C4 (amended): the two tokenizers agree on every buffer, cursor
position and capacity *provided the buffer contains no carriage return and
no line feed*; they differ in newline handling (`cmaketricks.cpp` emits
CR/LF as one-character tokens and stops bare runs at them,
`cmdfileremap.cpp` treats them as ordinary token characters). -/
theorem spec_c4 :
    ∀ (cap : Nat) (buf : List Char), (∀ c ∈ buf, c ≠ '\r' ∧ c ≠ '\n') →
      Cmaketricks.token cap buf = Cmdfileremap.token cap buf := by
  intro cap buf h
  cases hb : buf.dropWhile isWs with
  | nil => rw [tokenCT_nil hb, tokenCF_nil hb]
  | cons c bs =>
    have hsub : ∀ x ∈ c :: bs, x ∈ buf := by
      intro x hx
      exact (List.dropWhile_sublist isWs).subset (hb ▸ hx)
    have hc := h c (hsub c (List.mem_cons_self c bs))
    rw [tokenCT_cons hb, tokenCF_cons hb]
    rw [if_neg (by simp [hc.1, hc.2])]
    by_cases hq : (c == '"') = true
    · rw [if_pos hq, if_pos hq]
    · rw [if_neg hq, if_neg hq]
      have ht : (c :: bs).takeWhile notDelimCT = (c :: bs).takeWhile notDelimCF :=
        takeWhile_congr (fun x hx => by
          have hx2 := h x (hsub x hx)
          simp [notDelimCT, notDelimCF, bne_iff_ne.mpr hx2.1, bne_iff_ne.mpr hx2.2])
      have hd : (c :: bs).dropWhile notDelimCT = (c :: bs).dropWhile notDelimCF :=
        dropWhile_congr (fun x hx => by
          have hx2 := h x (hsub x hx)
          simp [notDelimCT, notDelimCF, bne_iff_ne.mpr hx2.1, bne_iff_ne.mpr hx2.2])
      rw [ht, hd]

/-- Claim C4 (witness): the amended equivalence applied to a concrete
newline-free buffer. -/
theorem spec_c4_witness :
    Cmaketricks.token 7 ("ab cd".data) = Cmdfileremap.token 7 ("ab cd".data) :=
  spec_c4 7 ("ab cd".data) (by decide)

/-- Claim C7: a token matching both the `SINGLE_PREFIX_PATH` shape
(`ONE_PATH`) and the `BARE_PATH` shape (`JUS_PATH`) is classified as
`SINGLE_PREFIX_PATH` with path offset 2 and never as `BARE_PATH`:
`ONE_PATH` is tested first and the first matching rule wins, and the
`CMD`-mode loop of `cmaketricks.cpp` accordingly rewrites such a token at
offset 2 and emits the two-character option part unchanged. -/
theorem spec_c7 (t : List Char) (hONE : matchONE t = true) (hJUS : matchJUS t = true) :
    classify t = (PatternClass.SINGLE, 2) ∧
    ∀ (tr : Translate) (buf rest q : List Char),
      Cmaketricks.token Cmaketricks.TOKEN_SIZE buf = .tok t rest →
      tr (t.drop 2) = some q →
      Cmaketricks.remapFile tr .CMD buf =
        Run.emit ('"' :: (t.take 2 ++ q) ++ ['"', ' '])
          (Cmaketricks.remapFile tr .CMD rest) := by
  constructor
  · unfold classify
    rw [if_pos hONE]
  · intro tr buf rest q h1 hq
    obtain ⟨c0, ts, rfl, hc0⟩ := matchONE_shape hONE
    rw [Cmaketricks.remapFile]
    split
    next heq => rw [h1] at heq; cases heq
    next heq => rw [h1] at heq; cases heq
    next t' rest' heq =>
      rw [h1] at heq
      cases heq
      rw [if_neg (head_ne_of_dash_slash hc0 (Or.inl rfl)),
          if_neg (head_ne_of_dash_slash hc0 (Or.inr (Or.inl rfl))),
          if_neg (head_ne_of_dash_slash hc0 (Or.inr (Or.inr rfl)))]
      split
      next heqm => rw [if_pos hONE, hq]
      next heqm => cases heqm

/-- Claim C7 (witness): `/I/a/b` matches both shapes and is processed as a
`SINGLE_PREFIX_PATH` with offset 2. -/
theorem spec_c7_witness :
    classify ("/I/a/b".data) = (PatternClass.SINGLE, 2) ∧
    Cmaketricks.remapFile trZ .CMD ("/I/a/b".data) =
      Run.emit ('"' :: ("/I/a/b".data.take 2 ++ "Z:/a/b".data) ++ ['"', ' '])
        (Cmaketricks.remapFile trZ .CMD []) := by
  obtain ⟨h1, h2⟩ := spec_c7 ("/I/a/b".data) (by decide) (by decide)
  exact ⟨h1, h2 trZ ("/I/a/b".data) [] ("Z:/a/b".data) (by decide) (by decide)⟩

/-- Claim C8: both tokenizers fail fatally (the assertion
`size < pTokenLen - 1` aborts, producing no token) exactly when the
consumed run's length is at least `cap - 1`, and any shorter run is
emitted intact, together with the cursor after it, with no truncation.
The three conjuncts cover the quoted run (shared shape in both files), the
bare run of `cmaketricks.cpp` and the bare run of `cmdfileremap.cpp`. -/
theorem spec_c8 (cap : Nat) (buf : List Char) :
    (∀ bs, buf.dropWhile isWs = '"' :: bs →
      (cap - 1 ≤ (bs.takeWhile notQuote).length →
        Cmaketricks.token cap buf = .overflow ∧ Cmdfileremap.token cap buf = .overflow) ∧
      ((bs.takeWhile notQuote).length < cap - 1 →
        Cmaketricks.token cap buf = .tok (bs.takeWhile notQuote) (bs.dropWhile notQuote) ∧
        Cmdfileremap.token cap buf = .tok (bs.takeWhile notQuote) (bs.dropWhile notQuote))) ∧
    (∀ c bs, buf.dropWhile isWs = c :: bs → c ≠ '"' → c ≠ '\r' → c ≠ '\n' →
      (cap - 1 ≤ ((c :: bs).takeWhile notDelimCT).length →
        Cmaketricks.token cap buf = .overflow) ∧
      (((c :: bs).takeWhile notDelimCT).length < cap - 1 →
        Cmaketricks.token cap buf =
          .tok ((c :: bs).takeWhile notDelimCT) ((c :: bs).dropWhile notDelimCT))) ∧
    (∀ c bs, buf.dropWhile isWs = c :: bs → c ≠ '"' →
      (cap - 1 ≤ ((c :: bs).takeWhile notDelimCF).length →
        Cmdfileremap.token cap buf = .overflow) ∧
      (((c :: bs).takeWhile notDelimCF).length < cap - 1 →
        Cmdfileremap.token cap buf =
          .tok ((c :: bs).takeWhile notDelimCF) ((c :: bs).dropWhile notDelimCF))) := by
  refine ⟨?_, ?_, ?_⟩
  · intro bs hb
    constructor
    · intro hge
      constructor
      · rw [tokenCT_cons hb, if_neg (by decide), if_pos (by decide), if_neg (by omega)]
      · rw [tokenCF_cons hb, if_pos (by decide), if_neg (by omega)]
    · intro hlt
      constructor
      · rw [tokenCT_cons hb, if_neg (by decide), if_pos (by decide), if_pos hlt]
      · rw [tokenCF_cons hb, if_pos (by decide), if_pos hlt]
  · intro c bs hb hq hcr hnl
    constructor
    · intro hge
      rw [tokenCT_cons hb, if_neg (by simp [hcr, hnl]), if_neg (by simp [hq]),
        if_neg (by omega)]
    · intro hlt
      rw [tokenCT_cons hb, if_neg (by simp [hcr, hnl]), if_neg (by simp [hq]),
        if_pos hlt]
  · intro c bs hb hq
    constructor
    · intro hge
      rw [tokenCF_cons hb, if_neg (by simp [hq]), if_neg (by omega)]
    · intro hlt
      rw [tokenCF_cons hb, if_neg (by simp [hq]), if_pos hlt]

/-- Claim C8 (witness): with capacity 3, the quoted run `abcd` (length 4,
meeting the `cap - 1 = 2` bound) makes both tokenizers abort. -/
theorem spec_c8_witness :
    Cmaketricks.token 3 ("\"abcd\"x".data) = .overflow ∧
    Cmdfileremap.token 3 ("\"abcd\"x".data) = .overflow :=
  ((spec_c8 3 ("\"abcd\"x".data)).1 ("abcd\"x".data) (by decide)).1 (by decide)

/-- Claim C10: in `cmaketricks.cpp`, a token whose decoded text begins
with a space (`tok[0] == ' '`) is treated as the no-token marker and
silently dropped, in both modes, with no translation performed on it; and
the only way `token` can produce a token beginning with a space is the
quoted branch (the position after the whitespace skip holds a double
quote), since bare runs never start with a space and the newline branch
emits CR or LF. -/
theorem spec_c10 :
    (∀ (tr : Translate) (m : Mode) (buf t rest : List Char),
      Cmaketricks.token Cmaketricks.TOKEN_SIZE buf = .tok t rest →
      t.head? = some ' ' →
      Cmaketricks.remapFile tr m buf = Cmaketricks.remapFile tr m rest) ∧
    (∀ (cap : Nat) (buf t rest : List Char),
      Cmaketricks.token cap buf = .tok t rest →
      t.head? = some ' ' →
      (buf.dropWhile isWs).head? = some '"') := by
  constructor
  · intro tr m buf t rest h hsp
    rw [Cmaketricks.remapFile]
    split
    next heq => rw [h] at heq; cases heq
    next heq => rw [h] at heq; cases heq
    next t' rest' heq =>
      rw [h] at heq
      cases heq
      rw [if_pos hsp]
  · intro cap buf t rest h hsp
    cases hb : buf.dropWhile isWs with
    | nil => rw [tokenCT_nil hb] at h; cases h
    | cons c bs =>
      rw [tokenCT_cons hb] at h
      by_cases h1 : (c == '\r' || c == '\n') = true
      · rw [if_pos h1] at h
        cases h
        simp only [List.head?_cons, Option.some.injEq] at hsp
        rw [hsp] at h1
        simp at h1
      · rw [if_neg h1] at h
        by_cases h2 : (c == '"') = true
        · simp [beq_iff_eq.mp h2]
        · rw [if_neg h2] at h
          by_cases h3 : ((c :: bs).takeWhile notDelimCT).length < cap - 1
          · rw [if_pos h3] at h
            cases h
            have hws : isWs c = false := dropWhile_head_not hb
            have hc : notDelimCT c = true := by
              simp only [isWs, Bool.or_eq_false_iff] at hws
              simp only [Bool.or_eq_true, not_or] at h1
              simp [notDelimCT, bne, hws.1, hws.2]
              constructor
              · intro hcr; exact h1.1 (by simp [hcr])
              · intro hnl; exact h1.2 (by simp [hnl])
            rw [List.takeWhile_cons_of_pos hc] at hsp
            simp only [List.head?_cons, Option.some.injEq] at hsp
            rw [hsp] at hws
            simp [isWs] at hws
          · rw [if_neg h3] at h; cases h

/-- Claim C10 (witness): in the buffer `" x" y` the first token decodes to
` x` (leading space) and is dropped; the position it came from holds a
double quote. -/
theorem spec_c10_witness :
    Cmaketricks.remapFile trZ .CMD ("\" x\" y".data) =
      Cmaketricks.remapFile trZ .CMD ("\" y".data) ∧
    (("\" x\" y".data).dropWhile isWs).head? = some '"' :=
  ⟨spec_c10.1 trZ .CMD ("\" x\" y".data) (" x".data) ("\" y".data) (by decide) (by decide),
   spec_c10.2 Cmaketricks.TOKEN_SIZE ("\" x\" y".data) (" x".data) ("\" y".data)
     (by decide) (by decide)⟩

/-- Claim C5: in `CMD` mode, a token of shape dash-or-slash, `F`, `I` or
`i`, `/`, path (a `DUO_PATH` forced include) is (a) rewritten at offset 3
through the translation capability, (b) emitted as the whole quoted token
(3-character option part intact, rewritten path appended) with a trailing
space, and (c) followed by exactly one recursive `remapFile` invocation on
the rewritten path with the literal mode `Mode.PCH`, after which the loop
continues on the rest of the buffer. -/
theorem spec_c5 (tr : Translate) (buf t rest q : List Char)
    (h1 : Cmaketricks.token Cmaketricks.TOKEN_SIZE buf = .tok t rest)
    (hDUO : matchDUO t = true)
    (hF : t.getD 1 'x' = 'F')
    (hI : t.getD 2 'x' = 'I' ∨ t.getD 2 'x' = 'i')
    (hq : tr (t.drop 3) = some q) :
    Cmaketricks.remapFile tr .CMD buf =
      Run.emit ('"' :: (t.take 3 ++ q) ++ ['"', ' '])
        (Run.addRec (q, Mode.PCH) (Cmaketricks.remapFile tr .CMD rest)) := by
  obtain ⟨c0, ts, rfl, hc0⟩ := matchDUO_shape hDUO
  rw [Cmaketricks.remapFile]
  split
  next heq => rw [h1] at heq; cases heq
  next heq => rw [h1] at heq; cases heq
  next t' rest' heq =>
    rw [h1] at heq
    cases heq
    rw [if_neg (head_ne_of_dash_slash hc0 (Or.inl rfl)),
        if_neg (head_ne_of_dash_slash hc0 (Or.inr (Or.inl rfl))),
        if_neg (head_ne_of_dash_slash hc0 (Or.inr (Or.inr rfl)))]
    split
    next heqm =>
      rw [if_neg (by simp [matchONE_of_DUO hDUO]), if_pos hDUO, hq]
      rcases hI with h | h
      · have hF2 : ts[0]?.getD 'x' = 'F' := by simpa using hF
        have hI2 : ts[1]?.getD 'x' = 'I' := by simpa using h
        simp [hF2, hI2]
      · have hF2 : ts[0]?.getD 'x' = 'F' := by simpa using hF
        have hI2 : ts[1]?.getD 'x' = 'i' := by simpa using h
        simp [hF2, hI2]
    next heqm => cases heqm

/-- Claim C5 (witness): the forced-include token `-FI/a/b` is rewritten at
offset 3, emitted quoted, and produces one `Mode.PCH` recursion on the
rewritten path. -/
theorem spec_c5_witness :
    Cmaketricks.remapFile trZ .CMD ("-FI/a/b".data) =
      Run.emit ('"' :: (("-FI/a/b".data).take 3 ++ "Z:/a/b".data) ++ ['"', ' '])
        (Run.addRec ("Z:/a/b".data, Mode.PCH) (Cmaketricks.remapFile trZ .CMD [])) :=
  spec_c5 trZ ("-FI/a/b".data) ("-FI/a/b".data) [] ("Z:/a/b".data)
    (by decide) (by decide) (by decide) (Or.inl (by decide)) (by decide)

/-- Claim C6: in `PCH` mode, a token whose text is exactly `#include`
followed by another token makes the loop emit `#include` verbatim (no
quotes), consume the next token unconditionally whatever its shape, remap
it without re-classification, and emit it as `space, quote, rewritten
target, quote` — one leading space, no trailing space — so the target
token is never dropped; afterwards the loop continues after the target. -/
theorem spec_c6 (tr : Translate) (buf rest t2 r2 q : List Char)
    (h1 : Cmaketricks.token Cmaketricks.TOKEN_SIZE buf = .tok ("#include".data) rest)
    (h2 : Cmaketricks.token Cmaketricks.TOKEN_SIZE rest = .tok t2 r2)
    (h3 : tr t2 = some q) :
    Cmaketricks.remapFile tr .PCH buf =
      Run.emit ("#include".data ++ ' ' :: '"' :: q ++ ['"'])
        (Cmaketricks.remapFile tr .PCH r2) := by
  rw [Cmaketricks.remapFile]
  split
  next heq => rw [h1] at heq; cases heq
  next heq => rw [h1] at heq; cases heq
  next t' rest' heq =>
    rw [h1] at heq
    cases heq
    rw [if_neg (by decide), if_neg (by decide), if_neg (by decide), if_pos rfl]
    split
    next heqm => cases heqm
    next heqm =>
      split
      next heq2 => rw [h2] at heq2; cases heq2
      next heq2 => rw [h2] at heq2; cases heq2
      next t2' r2' heq2 =>
        rw [h2] at heq2
        cases heq2
        rw [h3]

/-- Claim C6 (witness): `#include /usr/x` in `PCH` mode yields
`#include "Z:/usr/x"` with one leading space before the quote and the
target kept. -/
theorem spec_c6_witness :
    Cmaketricks.remapFile trZ .PCH ("#include /usr/x".data) =
      Run.emit ("#include".data ++ ' ' :: '"' :: ("Z:/usr/x".data) ++ ['"'])
        (Cmaketricks.remapFile trZ .PCH []) :=
  spec_c6 trZ ("#include /usr/x".data) (" /usr/x".data) ("/usr/x".data) []
    ("Z:/usr/x".data) (by decide) (by decide) (by decide)

/-- Claim C9: in `PCH` mode, when `#include` is the last token of the
file, the loop still calls the path rewriter — on the stale token buffer,
which holds `#include` because `token` returns `nullptr` without writing
the buffer on `END` — and then feeds the null cursor back to `token` in
the loop condition, dereferencing a null pointer.  Concretely: if the
capability fails on the text `#include` the run exits with code 4 after
writing `#include`; if it succeeds the run writes the quoted translation
of the text `#include` and then crashes on the null dereference. -/
theorem spec_c9 (tr : Translate) (buf rest : List Char)
    (h1 : Cmaketricks.token Cmaketricks.TOKEN_SIZE buf = .tok ("#include".data) rest)
    (h2 : Cmaketricks.token Cmaketricks.TOKEN_SIZE rest = .END) :
    Cmaketricks.remapFile tr .PCH buf =
      (match tr ("#include".data) with
       | none =>
         Run.emit ("#include".data) (Run.fail (.translationFailure ("#include".data)))
       | some q =>
         Run.emit ("#include".data ++ ' ' :: '"' :: q ++ ['"']) (Run.fail .nullDeref)) := by
  rw [Cmaketricks.remapFile]
  split
  next heq => rw [h1] at heq; cases heq
  next heq => rw [h1] at heq; cases heq
  next t' rest' heq =>
    rw [h1] at heq
    cases heq
    rw [if_neg (by decide), if_neg (by decide), if_neg (by decide), if_pos rfl]
    split
    next heqm => cases heqm
    next heqm =>
      split
      next heq2 => rfl
      next heq2 => rw [h2] at heq2; cases heq2
      next t2' r2' heq2 => rw [h2] at heq2; cases heq2

/-- Claim C9 (witness): a file whose whole content is `#include`, with a
capability that succeeds on the text `#include`, writes the include line
for the stale token and then hits the null dereference. -/
theorem spec_c9_witness :
    Cmaketricks.remapFile trZ .PCH ("#include".data) =
      Run.emit ("#include".data ++ ' ' :: '"' :: ("Z:#include".data) ++ ['"'])
        (Run.fail .nullDeref) := by
  rw [spec_c9 trZ ("#include".data) [] (by decide) (by decide)]
  rfl

/-- Claim C2: the claim says the `COMMAND_FILE` reserializer emits exactly
one copy of the whole token (option part unchanged, rewritten path
appended) wrapped in quotes with a single trailing space.  The
`cmaketricks.cpp` loop does exactly that (`fprintf( file, "\"%s\" ", tok )`
after the in-place remap), but the `cmdfileremap.cpp` loop — also cited by
the claim — prints `"\"%2s%s\" "` with `tok` passed twice: `%2s` is a
*minimum field width*, not a precision, so the whole rewritten token is
printed twice.  (Its `TRI_PATH` branch is worse still: it computes the
negative length `tok - strchr( tok, ':' )` and dies in
`new char[len + 1]`.)  This theorem evaluates both loops at the failing
input `-I/a/b` with a capability mapping `/a/b` to `Z:/a/b`:
`cmdfileremap.cpp` writes `"-IZ:/a/b-IZ:/a/b" ` where the claim demands
`"-IZ:/a/b" `, which `cmaketricks.cpp` produces. -/
theorem spec_c2 :
    Cmdfileremap.remapFile trZ ("-I/a/b".data) =
      ⟨("\"-IZ:/a/b-IZ:/a/b\" ".data), [], none⟩ ∧
    Cmaketricks.remapFile trZ .CMD ("-I/a/b".data) =
      ⟨("\"-IZ:/a/b\" ".data), [], none⟩ := by
  constructor
  · have htok : Cmdfileremap.token 1024 ("-I/a/b".data) = .tok ("-I/a/b".data) [] := by
      decide
    rw [Cmdfileremap.remapFile]
    split
    next heq => rw [htok] at heq; cases heq
    next heq => rw [htok] at heq; cases heq
    next t' r' heq =>
      rw [htok] at heq
      cases heq
      rw [remapFileCF_END (by decide)]
      decide
  · have htok : Cmaketricks.token Cmaketricks.TOKEN_SIZE ("-I/a/b".data) =
        .tok ("-I/a/b".data) [] := by
      decide
    rw [Cmaketricks.remapFile]
    split
    next heq => rw [htok] at heq; cases heq
    next heq => rw [htok] at heq; cases heq
    next t' r' heq =>
      rw [htok] at heq
      cases heq
      rw [remapFileCT_END (by decide)]
      decide

/-- The complete `cmaketricks.cpp` run over the file `/usr/y /tmp/x` under
a capability that fails exactly on `/tmp/x`: the first token is rewritten
and written out, then the failure aborts the run with exit code 4, the
quoted first token already being part of the destination's contents. -/
theorem remapFileCT_failTmp_run :
    Cmaketricks.remapFile trFailTmp .CMD ("/usr/y /tmp/x".data) =
      ⟨("\"/usr/y\" ".data), [], some (Err.translationFailure ("/tmp/x".data))⟩ := by
  have h2 : Cmaketricks.remapFile trFailTmp .CMD (" /tmp/x".data) =
      Run.fail (Err.translationFailure ("/tmp/x".data)) := by
    have htok : Cmaketricks.token Cmaketricks.TOKEN_SIZE (" /tmp/x".data) =
        .tok ("/tmp/x".data) [] := by
      decide
    rw [Cmaketricks.remapFile]
    split
    next heq => rw [htok] at heq; cases heq
    next heq => rw [htok] at heq; cases heq
    next t' r' heq =>
      rw [htok] at heq
      cases heq
      rw [if_neg (by decide), if_neg (by decide), if_neg (by decide)]
      split
      next heqm =>
        rw [if_neg (by decide), if_neg (by decide), if_neg (by decide),
          if_pos (by decide)]
        rw [show trFailTmp ("/tmp/x".data) = none from by decide]
      next heqm => cases heqm
  have htok : Cmaketricks.token Cmaketricks.TOKEN_SIZE ("/usr/y /tmp/x".data) =
      .tok ("/usr/y".data) (" /tmp/x".data) := by
    decide
  rw [Cmaketricks.remapFile]
  split
  next heq => rw [htok] at heq; cases heq
  next heq => rw [htok] at heq; cases heq
  next t' r' heq =>
    rw [htok] at heq
    cases heq
    rw [if_neg (by decide), if_neg (by decide), if_neg (by decide)]
    split
    next heqm =>
      rw [if_neg (by decide), if_neg (by decide), if_neg (by decide),
        if_pos (by decide)]
      rw [show trFailTmp ("/usr/y".data) = some ("/usr/y".data) from by decide]
      rw [h2]
      decide
    next heqm => cases heqm

/-- Claim C1 (counterexample): the claim states that on a translation
failure the run exits with code 4 *and* no partially rewritten output is
persisted.  The exit code is right, but `remapFile` opens the destination
with `fopen( pFile, "w" )` — truncating it — before the loop and writes
each token's output as it goes (`exit` flushes stdio), so on the file
`/usr/y /tmp/x`, with translation failing on `/tmp/x`, the run ends with
`exit( 4 )` while the rewritten first token `"/usr/y" ` — a prefix of the
rewritten token stream — has already been written over the destination's
prior contents. -/
theorem spec_c1_counterexample :
    (Cmaketricks.remapFile trFailTmp .CMD ("/usr/y /tmp/x".data)).err =
        some (Err.translationFailure ("/tmp/x".data)) ∧
    (Cmaketricks.remapFile trFailTmp .CMD ("/usr/y /tmp/x".data)).text ≠ [] := by
  constructor
  · rw [remapFileCT_failTmp_run]
  · rw [remapFileCT_failTmp_run]
    decide

/-- Claim C1 (amended): for every input file in which the translation
capability fails on a path the loop actually reaches, the run exits with
code 4 — a `translationFailure p` outcome arises exactly from the
capability returning `NULL` on `p` — but partially rewritten output *is*
persisted: the destination file is truncated when it is opened for
writing before the loop, each processed token's output is written as the
loop runs, and `exit` flushes those writes, so the destination ends up
holding the rewritten output of the tokens that preceded the failing one
(concretely: processing `/usr/y /tmp/x` with `/tmp/x` failing leaves
exactly `"/usr/y" ` in the destination). -/
theorem spec_c1 :
    (∀ (tr : Translate) (m : Mode) (buf p : List Char),
      (Cmaketricks.remapFile tr m buf).err = some (Err.translationFailure p) →
      tr p = none) ∧
    Cmaketricks.remapFile trFailTmp .CMD ("/usr/y /tmp/x".data) =
      ⟨("\"/usr/y\" ".data), [], some (Err.translationFailure ("/tmp/x".data))⟩ := by
  constructor
  · intro tr m buf p h
    exact remapFileCT_exit4_aux buf.length buf (le_refl _) tr m p h
  · exact remapFileCT_failTmp_run

/-- Claim C1 (witness): the general exit-code part of the amended claim
applied to the concrete failing run. -/
theorem spec_c1_witness : trFailTmp ("/tmp/x".data) = none :=
  spec_c1.1 trFailTmp .CMD ("/usr/y /tmp/x".data) ("/tmp/x".data)
    (by rw [remapFileCT_failTmp_run])

end MsvcWine
